import Mathlib

/-!
Verification of the self-critique planning core of this repository against its
specification.  The authoritative code is the Python implementation embedded in
`src/docs/plans/2026-01-06-self-critique-planner-design.md`:

* `backend/src/models/planning.py` — the `Verdict` enum (doc lines 1190-1193);
* `backend/src/critique/parser.py` — `CritiqueParser` (doc lines 1988-2054);
* `backend/src/critique/voting.py` — `VoteAggregator` (doc lines 2144-2185);
* `backend/src/critique/orchestrator.py` — `SelfCritiqueOrchestrator`
  (doc lines 2307-2434).

Text is modelled as Lean `String` (a list of characters); Python's `str.lower`
is modelled by per-character ASCII lowering (`Char.toLower`), which agrees with
Python on all ASCII inputs.  Python floats for the vote confidence are modelled
as exact rationals; for realistic batch sizes the two orders agree.  Fallible
operations (`Counter.most_common(1)[0]` on an empty batch, `next(...)` on an
exhausted generator, an exception escaping `run()`) are modelled with `Option`
and `Except`.
-/

set_option maxRecDepth 4000

namespace SelfCritique

/-- The closed verdict set, from `class Verdict(str, Enum)` in
`backend/src/models/planning.py` (design doc lines 1190-1193).  The
constructor order `CORRECT, WRONG, GOAL_NOT_REACHED` is the Python enum
definition order, which drives both the parser's pattern-dictionary order and
the breakdown-dictionary order in the aggregator. -/
inductive Verdict where
  | CORRECT
  | WRONG
  | GOAL_NOT_REACHED
deriving DecidableEq

/-- One parsed critique sample, from `@dataclass CritiqueResult` in
`backend/src/critique/parser.py` (doc lines 1996-2001). -/
structure CritiqueResult where
  verdict : Verdict
  step_traces : List String
  error_reason : Option String := none
  raw_response : String := ""
deriving DecidableEq

/-- Python `str.lower()` restricted to ASCII case folding. -/
def lowerStr (s : String) : String := String.mk (s.data.map Char.toLower)

/-- Substring test: `containsSub s pat = true` iff `pat` occurs contiguously in
`s`.  This models `re.search(pat, s)` for a literal (metacharacter-free)
pattern, which is exactly how `CritiqueParser` uses its verdict patterns. -/
def containsSub (s pat : List Char) : Bool :=
  match s with
  | [] => pat.isEmpty
  | c :: rest => pat.isPrefixOf (c :: rest) || containsSub rest pat

namespace CritiqueParser

/-- The `VERDICT_PATTERNS` dict of `CritiqueParser` (doc lines 2005-2009), as
an association list in Python dict insertion order. -/
def VERDICT_PATTERNS : List (Verdict × String) :=
  [(Verdict.CORRECT, "the plan is correct"),
   (Verdict.WRONG, "the plan is wrong"),
   (Verdict.GOAL_NOT_REACHED, "goal not reached")]

/-- `CritiqueParser._extract_verdict` (doc lines 2024-2032): lower-case the
response, then return the first verdict in dict order whose pattern occurs
anywhere in the lowered text, defaulting to `WRONG`. -/
def extract_verdict (response : String) : Verdict :=
  let response_lower := lowerStr response
  match VERDICT_PATTERNS.find? (fun p => containsSub response_lower.data p.2.data) with
  | some p => p.1
  | none => Verdict.WRONG

/-- Helper for the `Step \d+:` header match: after at least one digit has been
consumed, consume further digits and then require a colon. -/
def matchDigitsColonAux : List Char → Bool
  | [] => false
  | c :: rest => if c.isDigit then matchDigitsColonAux rest else c == ':'

/-- One-or-more digits followed by a colon (the `\d+:` tail of the step-header
regex). -/
def matchDigitsColon : List Char → Bool
  | [] => false
  | c :: rest => c.isDigit && matchDigitsColonAux rest

/-- Case-insensitive match of the regex `Step \d+:` at the head of the list. -/
def matchStepHeader : List Char → Bool
  | c1 :: c2 :: c3 :: c4 :: c5 :: rest =>
    c1.toLower == 's' && c2.toLower == 't' && c3.toLower == 'e' &&
      c4.toLower == 'p' && c5 == ' ' && matchDigitsColon rest
  | _ => false

/-- Characters up to (excluding) the next step-header start. -/
def takeUntilHeader : List Char → List Char
  | [] => []
  | c :: rest => if matchStepHeader (c :: rest) then [] else c :: takeUntilHeader rest

/-- Drop characters up to the next step-header start (result is empty or
starts at a header match). -/
def dropUntilHeader : List Char → List Char
  | [] => []
  | c :: rest => if matchStepHeader (c :: rest) then c :: rest else dropUntilHeader rest

theorem dropUntilHeader_length_le : ∀ l : List Char, (dropUntilHeader l).length ≤ l.length := by
  intro l
  induction l with
  | nil => simp [dropUntilHeader]
  | cons c rest ih =>
    simp only [dropUntilHeader]
    split
    · exact Nat.le_refl _
    · exact Nat.le_succ_of_le ih

/-- Segments produced by `re.findall(r"Step \d+:.*?(?=Step \d+:|$)", ...)`
starting from a position where a header matches: each segment runs from one
header start up to the next header start (or end of text). -/
def segmentsFrom : List Char → List (List Char)
  | [] => []
  | c :: rest => (c :: takeUntilHeader rest) :: segmentsFrom (dropUntilHeader rest)
termination_by l => l.length
decreasing_by
  simp only [List.length_cons]
  exact Nat.lt_succ_of_le (dropUntilHeader_length_le rest)

/-- Python's default `str.strip()` character class (ASCII whitespace). -/
def pyIsSpace (c : Char) : Bool :=
  c == ' ' || c == '\t' || c == '\n' || c == '\r' || c == '\x0b' || c == '\x0c'

/-- Python `str.strip()`: remove leading and trailing whitespace. -/
def pyStrip (s : List Char) : List Char :=
  ((s.dropWhile pyIsSpace).reverse.dropWhile pyIsSpace).reverse

/-- `CritiqueParser._extract_steps` (doc lines 2034-2038): find the repeating
`Step N:` blocks, each captured up to the next header or end of text, then
stripped. -/
def extract_steps (response : String) : List String :=
  (segmentsFrom (dropUntilHeader response.data)).map (fun seg => String.mk (pyStrip seg))

/-- Case-insensitive literal-match-at-head test (ASCII folding). -/
def isPrefixCI : List Char → List Char → Bool
  | [], _ => true
  | _ :: _, [] => false
  | p :: ps, c :: cs => p.toLower == c.toLower && isPrefixCI ps cs

/-- Index of the first case-insensitive occurrence of `pat` in `s`
(`re.search(..., re.IGNORECASE)` for a literal pattern). -/
def findCI : List Char → List Char → Option Nat
  | [], pat => if pat.isEmpty then some 0 else none
  | c :: rest, pat =>
    if isPrefixCI pat (c :: rest) then some 0 else (findCI rest pat).map (· + 1)

/-- Model of `re.search(lit + ".*", response, re.IGNORECASE).group(0)`: the
matched literal (original casing) extended greedily to the end of the line,
or `none` when the literal does not occur. -/
def searchToEol (s pat : List Char) : Option (List Char) :=
  match findCI s pat with
  | none => none
  | some i =>
    let t := s.drop i
    some (t.take pat.length ++ (t.drop pat.length).takeWhile (fun c => c != '\n'))

/-- `CritiqueParser._extract_error` (doc lines 2040-2053): try the three
failure-signal patterns in order, returning the first match's full line tail,
else `none`. -/
def extract_error (response : String) : Option String :=
  match searchToEol response.data "PRECONDITION FAILED".data with
  | some m => some (String.mk m)
  | none =>
    match searchToEol response.data "Error:".data with
    | some m => some (String.mk m)
    | none =>
      match searchToEol response.data "Cannot".data with
      | some m => some (String.mk m)
      | none => none

/-- `CritiqueParser.parse` (doc lines 2011-2022): always returns a
`CritiqueResult`; the error reason is only extracted for non-CORRECT
verdicts; the raw response is retained. -/
def parse (response : String) : CritiqueResult :=
  let verdict := extract_verdict response
  let step_traces := extract_steps response
  let error_reason := if verdict ≠ Verdict.CORRECT then extract_error response else none
  { verdict := verdict, step_traces := step_traces,
    error_reason := error_reason, raw_response := response }

end CritiqueParser

/-- Occurrence count of a verdict in a list (`Counter(verdicts)[v]`). -/
def vcount (v : Verdict) : List Verdict → Nat
  | [] => 0
  | w :: rest => (if w = v then 1 else 0) + vcount v rest

/-- Index of the first occurrence of a verdict (list length if absent). -/
def firstIdx : List Verdict → Verdict → Nat
  | [], _ => 0
  | w :: rest, v => if w = v then 0 else firstIdx rest v + 1

/-- The distinct verdicts of a list in order of first occurrence.  This is the
key-insertion order of the Python `Counter` dict built from the list. -/
def firstOccs : List Verdict → List Verdict
  | [] => []
  | v :: rest => v :: (firstOccs rest).filter (fun w => decide (w ≠ v))

/-- Fold selecting the entry of maximal count; on ties the earlier entry is
kept.  Together with `firstOccs` this models CPython's
`Counter.most_common`, whose documented behavior is that elements with equal
counts are ordered in the order first encountered. -/
def pickMax (vs : List Verdict) : List Verdict → Verdict × Nat → Verdict × Nat
  | [], best => best
  | w :: rest, best =>
    pickMax vs rest (if best.2 < vcount w vs then (w, vcount w vs) else best)

/-- `Counter(vs).most_common(1)[0]` — `none` models the `IndexError` raised on
an empty list. -/
def mostCommon1 (vs : List Verdict) : Option (Verdict × Nat) :=
  match firstOccs vs with
  | [] => none
  | v :: rest => some (pickMax vs rest (v, vcount v vs))

/-- The aggregate of one critique batch, from `@dataclass VoteResult` in
`backend/src/critique/voting.py` (doc lines 2153-2159).  `breakdown` models
the Python dict `{v: counter.get(v, 0) for v in Verdict}` as an association
list in `Verdict` enum order; `confidence` models the float division
`majority_count / len(results)` exactly as a rational. -/
structure VoteResult where
  majority_verdict : Verdict
  breakdown : List (Verdict × Nat)
  confidence : ℚ
  is_low_confidence : Bool
  best_critique : CritiqueResult
deriving DecidableEq

namespace VoteAggregator

/-- `VoteAggregator.LOW_CONFIDENCE_THRESHOLD = 0.8` (doc line 2163). -/
def LOW_CONFIDENCE_THRESHOLD : ℚ := 4 / 5

/-- `VoteAggregator.aggregate` (doc lines 2165-2184).  `none` models the
`IndexError` raised by `counter.most_common(1)[0]` on an empty batch (the
inner `none` branch models the `StopIteration` of `next(...)`, which cannot
occur since the majority verdict always occurs in the batch). -/
def aggregate (results : List CritiqueResult) : Option VoteResult :=
  let verdicts := results.map (fun r => r.verdict)
  match mostCommon1 verdicts with
  | none => none
  | some (majority_verdict, majority_count) =>
    let confidence : ℚ := (majority_count : ℚ) / (results.length : ℚ)
    match results.find? (fun r => decide (r.verdict = majority_verdict)) with
    | none => none
    | some best_critique =>
      some { majority_verdict := majority_verdict,
             breakdown :=
               [(Verdict.CORRECT, vcount Verdict.CORRECT verdicts),
                (Verdict.WRONG, vcount Verdict.WRONG verdicts),
                (Verdict.GOAL_NOT_REACHED, vcount Verdict.GOAL_NOT_REACHED verdicts)],
             confidence := confidence,
             is_low_confidence := decide (confidence < LOW_CONFIDENCE_THRESHOLD),
             best_critique := best_critique }

end VoteAggregator

/-- Outcome of one completion call against the provider: the response content,
or a raised `ProviderError` carrying a message. -/
inductive ProviderOutcome where
  | success (content : String)
  | failure (error : String)
deriving DecidableEq

/-- The constructor parameters of `SelfCritiqueOrchestrator` that the control
flow depends on (doc lines 2355-2365); the router and provider objects are
abstracted by the oracle passed to `run`. -/
structure OrchestratorConfig where
  max_iterations : Nat := 5
  num_critique_samples : Nat := 5
deriving DecidableEq

/-- One entry of `iteration_history` (the dict appended at doc lines
2378-2382). -/
structure IterationRecord where
  iteration : Nat
  plan : String
  vote_result : VoteResult
deriving DecidableEq

/-- `@dataclass PlanResult` (doc lines 2319-2325). -/
structure PlanResult where
  plan : String
  status : String
  iterations : Nat
  final_verdict : Verdict
  iteration_history : List IterationRecord := []
deriving DecidableEq

namespace SelfCritiqueOrchestrator

/-- `SelfCritiqueOrchestrator.PLAN_PROMPT` (doc lines 2329-2337), with the
`.format` substitution applied. -/
def PLAN_PROMPT (domain_pddl problem_pddl critique_history : String) : String :=
  "Given the domain definition:\n" ++ domain_pddl ++
  "\n\nThe problem to solve:\n" ++ problem_pddl ++
  "\n\n" ++ critique_history ++
  "\n\nGenerate a plan to solve this problem. Output only the numbered list of actions."

/-- `SelfCritiqueOrchestrator.CRITIQUE_PROMPT` (doc lines 2339-2353), with the
`.format` substitution applied. -/
def CRITIQUE_PROMPT (domain_pddl problem_pddl plan : String) : String :=
  "Given the domain definition:\n" ++ domain_pddl ++
  "\n\nSo, for each action:\n1. Take the action and its preconditions from the domain definition for the specific action.\n2. Verify whether the preconditions are met for the action.\n3. Apply the action and provide the resulting state.\n\nThe problem to solve:\n" ++
  problem_pddl ++
  "\n\nThe suggested solution:\n" ++ plan ++
  "\n\nPlease carefully evaluate the plan. Verify each step as described above. Do not stop until each action is verified; please *do not* omit steps. Conclude with the assessment literally either with \x27the plan is correct\x27, \x27the plan is wrong\x27, or \x27goal not reached\x27."

/-- Python's `str(x)` of an `str | None` value, as used by the f-string that
builds the critique history: `None` renders as the literal text `None`. -/
def formatOptionStr : Option String → String
  | some s => s
  | none => "None"

/-- The critique-history f-string of doc line 2394:
`f"\nPrevious attempt failed with: {vote_result.best_critique.error_reason}\nPlease fix this issue."`. -/
def critiqueHistoryText (error_reason : Option String) : String :=
  "\nPrevious attempt failed with: " ++ formatOptionStr error_reason ++
  "\nPlease fix this issue."

/-- The first `ProviderError` among the fan-out outcomes in submission order;
models `await asyncio.gather(*tasks)` (doc line 2430) propagating the first
exception (with deterministic mock providers the tasks settle in submission
order).  `none` means every call succeeded. -/
def firstError : List ProviderOutcome → Option String
  | [] => none
  | ProviderOutcome.failure e :: _ => some e
  | ProviderOutcome.success _ :: rest => firstError rest

/-- Content of a successful outcome (only consulted when `firstError` found
no failure). -/
def contentOf : ProviderOutcome → String
  | ProviderOutcome.success c => c
  | ProviderOutcome.failure _ => ""

/-- One loop iteration of `run` (doc lines 2372-2376): the single generation
call `_generate_plan` (doc lines 2404-2416) followed by the critique fan-out
`_run_critiques` (doc lines 2418-2433).  The provider is an oracle mapping
(call index, prompt) to an outcome; calls are numbered in submission order,
`callIdx` being the generation call and `callIdx + 1 + i` the i-th critique
sample.  `Except.error` models an exception propagating out of the call. -/
def runIteration (cfg : OrchestratorConfig) (oracle : Nat → String → ProviderOutcome)
    (domain_pddl problem_pddl critique_history : String) (callIdx : Nat) :
    Except String (String × VoteResult) :=
  match oracle callIdx (PLAN_PROMPT domain_pddl problem_pddl critique_history) with
  | ProviderOutcome.failure e => Except.error e
  | ProviderOutcome.success plan =>
    let prompt := CRITIQUE_PROMPT domain_pddl problem_pddl plan
    let outcomes := (List.range cfg.num_critique_samples).map
      (fun i => oracle (callIdx + 1 + i) prompt)
    match firstError outcomes with
    | some e => Except.error e
    | none =>
      let results := outcomes.map (fun o => CritiqueParser.parse (contentOf o))
      match VoteAggregator.aggregate results with
      | none => Except.error "IndexError"
      | some vote => Except.ok (plan, vote)

/-- The loop body of `SelfCritiqueOrchestrator.run` (doc lines 2367-2402),
recursing on the number of remaining iterations.  `iter` is the Python loop
variable (`for iteration in range(1, max_iterations + 1)`), `last` carries
the most recent `(plan, vote_result)` pair for the fall-through return after
the loop; `Except.error "UnboundLocalError"` models that return's reference
to the unbound loop variables when `max_iterations = 0`. -/
def runFrom (cfg : OrchestratorConfig) (oracle : Nat → String → ProviderOutcome)
    (domain_pddl problem_pddl : String) :
    Nat → Nat → Nat → String → List IterationRecord → Option (String × VoteResult) →
    Except String PlanResult
  | 0, _iter, _callIdx, _history, iteration_history, last =>
    match last with
    | none => Except.error "UnboundLocalError"
    | some (plan, vote) =>
      Except.ok { plan := plan, status := "max_iterations",
                  iterations := cfg.max_iterations,
                  final_verdict := vote.majority_verdict,
                  iteration_history := iteration_history }
  | remaining + 1, iter, callIdx, history, iteration_history, _last =>
    match runIteration cfg oracle domain_pddl problem_pddl history callIdx with
    | Except.error e => Except.error e
    | Except.ok (plan, vote) =>
      let iteration_history' := iteration_history ++
        [{ iteration := iter, plan := plan, vote_result := vote }]
      if vote.majority_verdict = Verdict.CORRECT then
        Except.ok { plan := plan, status := "valid", iterations := iter,
                    final_verdict := Verdict.CORRECT,
                    iteration_history := iteration_history' }
      else
        runFrom cfg oracle domain_pddl problem_pddl remaining (iter + 1)
          (callIdx + 1 + cfg.num_critique_samples)
          (critiqueHistoryText vote.best_critique.error_reason)
          iteration_history' (some (plan, vote))

/-- `SelfCritiqueOrchestrator.run` (doc lines 2367-2402): iterate from
iteration 1 with empty critique history and empty iteration history. -/
def run (cfg : OrchestratorConfig) (oracle : Nat → String → ProviderOutcome)
    (domain_pddl problem_pddl : String) : Except String PlanResult :=
  runFrom cfg oracle domain_pddl problem_pddl cfg.max_iterations 1 0 "" [] none

end SelfCritiqueOrchestrator

/-! ### Concrete fixtures used to instantiate the claims -/

/-- A critique result carrying only a verdict, as built throughout the design
doc's voting tests (`CritiqueResult(verdict=..., step_traces=[])`). -/
def mkCritique (v : Verdict) : CritiqueResult :=
  { verdict := v, step_traces := [] }

/-- A 2-2-1 batch tied between WRONG and GOAL_NOT_REACHED, with WRONG first
in batch order. -/
def batchTie : List CritiqueResult :=
  [mkCritique Verdict.WRONG, mkCritique Verdict.WRONG,
   mkCritique Verdict.GOAL_NOT_REACHED, mkCritique Verdict.GOAL_NOT_REACHED,
   mkCritique Verdict.CORRECT]

/-- The vote the aggregator produces on `batchTie`. -/
def voteTie : VoteResult :=
  { majority_verdict := Verdict.WRONG,
    breakdown := [(Verdict.CORRECT, 1), (Verdict.WRONG, 2), (Verdict.GOAL_NOT_REACHED, 2)],
    confidence := (2 : ℚ) / 5,
    is_low_confidence := decide ((2 : ℚ) / 5 < VoteAggregator.LOW_CONFIDENCE_THRESHOLD),
    best_critique := mkCritique Verdict.WRONG }

/-- Orchestrator parameters of the design doc's end-to-end tests
(`max_iterations=3, num_critique_samples=5`). -/
def cfgThreeByFive : OrchestratorConfig :=
  { max_iterations := 3, num_critique_samples := 5 }

/-- A provider whose single generation call (call index 0) raises
`ProviderError`, while any critique call would succeed. -/
def oracleGenFail : Nat → String → ProviderOutcome := fun i _ =>
  if i = 0 then ProviderOutcome.failure "ProviderError"
  else ProviderOutcome.success "the plan is correct"

/-- A provider for which generation succeeds and, in the first critique
fan-out of five, calls 1 and 2 raise `ProviderError` while calls 3, 4
return "the plan is correct" and call 5 returns "the plan is wrong". -/
def oraclePartialFail : Nat → String → ProviderOutcome := fun i _ =>
  if i = 0 then ProviderOutcome.success "1. pickup A"
  else if i = 1 then ProviderOutcome.failure "ProviderError"
  else if i = 2 then ProviderOutcome.failure "ProviderError"
  else if i = 5 then ProviderOutcome.success "the plan is wrong"
  else ProviderOutcome.success "the plan is correct"

/-- The smallest run shape: one iteration, one critique sample. -/
def cfgOneByOne : OrchestratorConfig :=
  { max_iterations := 1, num_critique_samples := 1 }

/-- A provider answering every call with "the plan is correct". -/
def oracleAllCorrect : Nat → String → ProviderOutcome := fun _ _ =>
  ProviderOutcome.success "the plan is correct"

/-- The vote of a single-sample batch whose critique is
"the plan is correct". -/
def voteOneCorrect : VoteResult :=
  { majority_verdict := Verdict.CORRECT,
    breakdown := [(Verdict.CORRECT, 1), (Verdict.WRONG, 0), (Verdict.GOAL_NOT_REACHED, 0)],
    confidence := (1 : ℚ) / 1,
    is_low_confidence := decide ((1 : ℚ) / 1 < VoteAggregator.LOW_CONFIDENCE_THRESHOLD),
    best_critique := CritiqueParser.parse "the plan is correct" }

/-- The `PlanResult` of running `cfgOneByOne` against `oracleAllCorrect`. -/
def resultOneCorrect : PlanResult :=
  { plan := "the plan is correct", status := "valid", iterations := 1,
    final_verdict := Verdict.CORRECT,
    iteration_history := [⟨1, "the plan is correct", voteOneCorrect⟩] }

/-- The vote of a single-sample batch whose critique is
"the plan is wrong" (which carries no extractable error reason). -/
def voteOneWrong : VoteResult :=
  { majority_verdict := Verdict.WRONG,
    breakdown := [(Verdict.CORRECT, 0), (Verdict.WRONG, 1), (Verdict.GOAL_NOT_REACHED, 0)],
    confidence := (1 : ℚ) / 1,
    is_low_confidence := decide ((1 : ℚ) / 1 < VoteAggregator.LOW_CONFIDENCE_THRESHOLD),
    best_critique := CritiqueParser.parse "the plan is wrong" }

/-- A provider answering every call with "the plan is wrong". -/
def oracleAllWrong : Nat → String → ProviderOutcome := fun _ _ =>
  ProviderOutcome.success "the plan is wrong"

/-- Two iterations, one critique sample each. -/
def cfgTwoByOne : OrchestratorConfig :=
  { max_iterations := 2, num_critique_samples := 1 }

/-- A provider that inspects the prompt of the second iteration's generation
call (call index 2): it fails unless the prompt embeds the literal critique
history `Previous attempt failed with: None`, and also fails if the prompt
contains a generic `plan was rejected` message.  A successful run therefore
proves what the second generation prompt contains. -/
def oracleObserveHistory : Nat → String → ProviderOutcome := fun i prompt =>
  if i = 0 then ProviderOutcome.success "plan A"
  else if i = 1 then ProviderOutcome.success "the plan is wrong"
  else if i = 2 then
    (if containsSub prompt.data "Previous attempt failed with: None".data then
      (if containsSub prompt.data "plan was rejected".data then
        ProviderOutcome.failure "generic message present"
       else ProviderOutcome.success "plan B")
     else ProviderOutcome.failure "templated reason missing")
  else ProviderOutcome.success "the plan is correct"

/-- A batch whose majority verdict (WRONG, count 2) first occurs at index 1,
so the best critique is not the first batch element. -/
def batchFirstMatch : List CritiqueResult :=
  [mkCritique Verdict.CORRECT, mkCritique Verdict.WRONG, mkCritique Verdict.WRONG]

/-- The vote of a single-element batch on one CORRECT critique result. -/
def voteSingleCorrect : VoteResult :=
  { majority_verdict := Verdict.CORRECT,
    breakdown := [(Verdict.CORRECT, 1), (Verdict.WRONG, 0), (Verdict.GOAL_NOT_REACHED, 0)],
    confidence := (1 : ℚ) / 1,
    is_low_confidence := decide ((1 : ℚ) / 1 < VoteAggregator.LOW_CONFIDENCE_THRESHOLD),
    best_critique := mkCritique Verdict.CORRECT }

/-! ### Helper lemmas about the text primitives -/

theorem isPrefixOf_eq_true_iff :
    ∀ p s : List Char, p.isPrefixOf s = true ↔ ∃ t, s = p ++ t := by
  intro p
  induction p with
  | nil => intro s; simp [List.isPrefixOf]
  | cons a as ih =>
    intro s
    cases s with
    | nil => simp [List.isPrefixOf]
    | cons b bs =>
      simp only [List.isPrefixOf, Bool.and_eq_true, beq_iff_eq, ih bs,
        List.cons_append, List.cons.injEq]
      constructor
      · rintro ⟨rfl, t, rfl⟩; exact ⟨t, rfl, rfl⟩
      · rintro ⟨t, rfl, rfl⟩; exact ⟨rfl, t, rfl⟩

theorem containsSub_eq_true_iff :
    ∀ s pat : List Char, containsSub s pat = true ↔ ∃ a b, s = a ++ pat ++ b := by
  intro s
  induction s with
  | nil =>
    intro pat
    simp only [containsSub, List.isEmpty_iff]
    constructor
    · rintro rfl; exact ⟨[], [], rfl⟩
    · rintro ⟨a, b, hab⟩
      rcases List.append_eq_nil.mp hab.symm with ⟨h1, h2⟩
      exact (List.append_eq_nil.mp h1).2
  | cons c rest ih =>
    intro pat
    simp only [containsSub, Bool.or_eq_true, isPrefixOf_eq_true_iff, ih]
    constructor
    · rintro (⟨t, ht⟩ | ⟨a, b, hab⟩)
      · exact ⟨[], t, by simpa using ht⟩
      · exact ⟨c :: a, b, by simp [hab]⟩
    · rintro ⟨a, b, hab⟩
      cases a with
      | nil => exact Or.inl ⟨b, by simpa using hab⟩
      | cons c' a' =>
        right
        have h1 : c = c' ∧ rest = a' ++ pat ++ b := by
          simpa using hab
        exact ⟨a', b, h1.2⟩

/-! ### Helper lemmas about verdict counting and `most_common` -/

theorem vcount_pos_iff_mem (v : Verdict) :
    ∀ l : List Verdict, 0 < vcount v l ↔ v ∈ l := by
  intro l
  induction l with
  | nil => simp [vcount]
  | cons w rest ih =>
    simp only [vcount, List.mem_cons]
    by_cases h : w = v
    · subst h; simp
    · simp only [if_neg h, Nat.zero_add, ih]
      constructor
      · exact Or.inr
      · rintro (rfl | hm)
        · exact absurd rfl h
        · exact hm

theorem vcount_eq_zero_of_not_mem {v : Verdict} {l : List Verdict} (h : v ∉ l) :
    vcount v l = 0 := by
  by_contra hne
  exact h ((vcount_pos_iff_mem v l).mp (Nat.pos_of_ne_zero hne))

theorem vcount_sum_eq_length :
    ∀ l : List Verdict,
      vcount Verdict.CORRECT l + vcount Verdict.WRONG l +
        vcount Verdict.GOAL_NOT_REACHED l = l.length := by
  intro l
  induction l with
  | nil => simp [vcount]
  | cons w rest ih =>
    cases w <;> simp [vcount] <;> omega

theorem firstIdx_cons_self (v : Verdict) (l : List Verdict) :
    firstIdx (v :: l) v = 0 := by
  simp [firstIdx]

theorem firstIdx_cons_ne {v w : Verdict} (l : List Verdict) (h : w ≠ v) :
    firstIdx (w :: l) v = firstIdx l v + 1 := by
  simp [firstIdx, h]

theorem mem_firstOccs_iff (w : Verdict) :
    ∀ l : List Verdict, w ∈ firstOccs l ↔ w ∈ l := by
  intro l
  induction l with
  | nil => simp [firstOccs]
  | cons v rest ih =>
    simp only [firstOccs, List.mem_cons, List.mem_filter, ih, decide_eq_true_eq]
    constructor
    · rintro (rfl | ⟨hm, _⟩)
      · exact Or.inl rfl
      · exact Or.inr hm
    · rintro (rfl | hm)
      · exact Or.inl rfl
      · by_cases hw : w = v
        · exact Or.inl hw
        · exact Or.inr ⟨hm, hw⟩

theorem firstOccs_eq_nil_iff : ∀ l : List Verdict, firstOccs l = [] ↔ l = [] := by
  intro l
  cases l with
  | nil => simp [firstOccs]
  | cons v rest => simp [firstOccs]

theorem firstOccs_pairwise_firstIdx :
    ∀ l : List Verdict,
      (firstOccs l).Pairwise (fun a b => firstIdx l a < firstIdx l b) := by
  intro l
  induction l with
  | nil => simp [firstOccs]
  | cons v rest ih =>
    simp only [firstOccs]
    refine List.Pairwise.cons ?_ ?_
    · intro b hb
      have hbv : b ≠ v := by
        have := (List.mem_filter.mp hb).2
        simpa using this
      rw [firstIdx_cons_self, firstIdx_cons_ne rest (Ne.symm hbv)]
      exact Nat.succ_pos _
    · have hfil : ((firstOccs rest).filter (fun w => decide (w ≠ v))).Pairwise
          (fun a b => firstIdx rest a < firstIdx rest b) :=
        List.Pairwise.sublist (List.filter_sublist _) ih
      refine List.Pairwise.imp_of_mem ?_ hfil
      intro a b ha hb hab
      have hav : a ≠ v := by
        have := (List.mem_filter.mp ha).2; simpa using this
      have hbv : b ≠ v := by
        have := (List.mem_filter.mp hb).2; simpa using this
      rw [firstIdx_cons_ne rest (Ne.symm hav), firstIdx_cons_ne rest (Ne.symm hbv)]
      exact Nat.succ_lt_succ hab

theorem pickMax_go_spec (vs : List Verdict) :
    ∀ (T : List Verdict) (b : Verdict) (n : Nat),
      n = vcount b vs →
      (∀ w ∈ T, firstIdx vs b < firstIdx vs w) →
      T.Pairwise (fun a c => firstIdx vs a < firstIdx vs c) →
      (pickMax vs T (b, n)).2 = vcount (pickMax vs T (b, n)).1 vs ∧
      ((pickMax vs T (b, n)).1 = b ∨ (pickMax vs T (b, n)).1 ∈ T) ∧
      n ≤ (pickMax vs T (b, n)).2 ∧
      (∀ w, (w = b ∨ w ∈ T) → vcount w vs ≤ (pickMax vs T (b, n)).2) ∧
      (∀ w, (w = b ∨ w ∈ T) → vcount w vs = (pickMax vs T (b, n)).2 →
        firstIdx vs (pickMax vs T (b, n)).1 ≤ firstIdx vs w) ∧
      ((pickMax vs T (b, n)).1 = b ∨ n < (pickMax vs T (b, n)).2) := by
  intro T
  induction T with
  | nil =>
    intro b n hn _ _
    refine ⟨hn, Or.inl rfl, Nat.le_refl n, ?_, ?_, Or.inl rfl⟩
    · rintro w (rfl | hw)
      · exact Nat.le_of_eq hn.symm
      · cases hw
    · rintro w (rfl | hw) _
      · exact Nat.le_refl _
      · cases hw
  | cons w T' ih =>
    intro b n hn hbefore hpw
    have hwT : w ∈ w :: T' := List.mem_cons_self w T'
    have hbw : firstIdx vs b < firstIdx vs w := hbefore w hwT
    have hpw' : T'.Pairwise (fun a c => firstIdx vs a < firstIdx vs c) :=
      List.Pairwise.of_cons hpw
    have hwT' : ∀ u ∈ T', firstIdx vs w < firstIdx vs u := by
      intro u hu
      exact (List.pairwise_cons.mp hpw).1 u hu
    simp only [pickMax]
    by_cases hlt : n < vcount w vs
    · rw [if_pos hlt]
      have ihc := ih w (vcount w vs) rfl hwT' hpw'
      obtain ⟨i1, i2, i3, i4, i5, i6⟩ := ihc
      refine ⟨i1, ?_, ?_, ?_, ?_, ?_⟩
      · rcases i2 with h | h
        · exact Or.inr (by rw [h]; exact List.mem_cons_self w T')
        · exact Or.inr (List.mem_cons_of_mem w h)
      · exact Nat.le_of_lt (Nat.lt_of_lt_of_le hlt i3)
      · rintro u (rfl | hu)
        · calc vcount u vs ≤ n := Nat.le_of_eq hn.symm
            _ ≤ (pickMax vs T' (w, vcount w vs)).2 :=
              Nat.le_of_lt (Nat.lt_of_lt_of_le hlt i3)
        · rcases List.mem_cons.mp hu with rfl | hu'
          · exact i4 u (Or.inl rfl)
          · exact i4 u (Or.inr hu')
      · rintro u (rfl | hu) hcnt
        · exfalso
          have : vcount u vs < (pickMax vs T' (w, vcount w vs)).2 :=
            Nat.lt_of_lt_of_le (hn ▸ hlt) i3
          omega
        · rcases List.mem_cons.mp hu with rfl | hu'
          · exact i5 u (Or.inl rfl) hcnt
          · exact i5 u (Or.inr hu') hcnt
      · exact Or.inr (Nat.lt_of_lt_of_le hlt i3)
    · rw [if_neg hlt]
      have hforward : ∀ u ∈ T', firstIdx vs b < firstIdx vs u := by
        intro u hu
        exact Nat.lt_trans hbw (hwT' u hu)
      have ihc := ih b n hn hforward hpw'
      obtain ⟨i1, i2, i3, i4, i5, i6⟩ := ihc
      refine ⟨i1, ?_, i3, ?_, ?_, i6⟩
      · rcases i2 with h | h
        · exact Or.inl h
        · exact Or.inr (List.mem_cons_of_mem w h)
      · rintro u (rfl | hu)
        · exact i4 u (Or.inl rfl)
        · rcases List.mem_cons.mp hu with rfl | hu'
          · have : vcount u vs ≤ n := Nat.le_of_not_lt hlt
            exact Nat.le_trans this i3
          · exact i4 u (Or.inr hu')
      · rintro u (rfl | hu) hcnt
        · exact i5 u (Or.inl rfl) hcnt
        · rcases List.mem_cons.mp hu with rfl | hu'
          · have hun : vcount u vs ≤ n := Nat.le_of_not_lt hlt
            have hnr : n = (pickMax vs T' (b, n)).2 := by omega
            rcases i6 with hb1 | hb2
            · rw [hb1]
              exact Nat.le_of_lt hbw
            · omega
          · exact i5 u (Or.inr hu') hcnt

theorem mostCommon1_spec (vs : List Verdict) (hvs : vs ≠ []) :
    ∃ mv mc, mostCommon1 vs = some (mv, mc) ∧ mc = vcount mv vs ∧ mv ∈ vs ∧
      (∀ w, vcount w vs ≤ mc) ∧
      (∀ w, vcount w vs = mc → firstIdx vs mv ≤ firstIdx vs w) := by
  have hocc : firstOccs vs ≠ [] := by
    intro h
    exact hvs ((firstOccs_eq_nil_iff vs).mp h)
  rcases hv : firstOccs vs with _ | ⟨v, T⟩
  · exact absurd hv hocc
  have hpw : (v :: T).Pairwise (fun a b => firstIdx vs a < firstIdx vs b) := by
    rw [← hv]; exact firstOccs_pairwise_firstIdx vs
  have hbefore : ∀ w ∈ T, firstIdx vs v < firstIdx vs w :=
    (List.pairwise_cons.mp hpw).1
  have hT : T.Pairwise (fun a b => firstIdx vs a < firstIdx vs b) :=
    (List.pairwise_cons.mp hpw).2
  obtain ⟨i1, i2, i3, i4, i5, _⟩ := pickMax_go_spec vs T v (vcount v vs) rfl hbefore hT
  set r := pickMax vs T (v, vcount v vs) with hr
  have hmem : r.1 ∈ vs := by
    rcases i2 with h | h
    · rw [h]
      exact (mem_firstOccs_iff v vs).mp (by rw [hv]; exact List.mem_cons_self v T)
    · exact (mem_firstOccs_iff r.1 vs).mp (by rw [hv]; exact List.mem_cons_of_mem v h)
  have hrpos : 0 < vcount r.1 vs := (vcount_pos_iff_mem r.1 vs).mpr hmem
  refine ⟨r.1, r.2, ?_, i1, hmem, ?_, ?_⟩
  · simp only [mostCommon1, hv, hr]
  · intro w
    by_cases hw : w ∈ vs
    · have : w ∈ firstOccs vs := (mem_firstOccs_iff w vs).mpr hw
      rw [hv] at this
      rcases List.mem_cons.mp this with rfl | hwT
      · exact i4 w (Or.inl rfl)
      · exact i4 w (Or.inr hwT)
    · rw [vcount_eq_zero_of_not_mem hw]
      exact Nat.zero_le _
  · intro w hcnt
    have hwpos : 0 < vcount w vs := by rw [hcnt, i1]; exact hrpos
    have hw : w ∈ vs := (vcount_pos_iff_mem w vs).mp hwpos
    have : w ∈ firstOccs vs := (mem_firstOccs_iff w vs).mpr hw
    rw [hv] at this
    rcases List.mem_cons.mp this with rfl | hwT
    · exact i5 w (Or.inl rfl) hcnt
    · exact i5 w (Or.inr hwT) hcnt

/-! ### Helper lemmas about `List.find?` (models Python's `next(...)`) -/

theorem find?_first_spec {α : Type} (p : α → Bool) :
    ∀ (l : List α) (r : α), l.find? p = some r →
      ∃ i, ∃ h : i < l.length, l[i] = r ∧ p r = true ∧
        ∀ j, (hj : j < l.length) → j < i → p (l[j]) = false := by
  intro l
  induction l with
  | nil => intro r h; simp [List.find?] at h
  | cons a rest ih =>
    intro r h
    by_cases hp : p a = true
    · rw [List.find?_cons_of_pos _ hp] at h
      refine ⟨0, Nat.succ_pos _, by simpa using (Option.some.injEq _ _ ▸ h).symm ▸ rfl, ?_, ?_⟩
      · cases h; exact hp
      · intro j hj hji; omega
    · rw [List.find?_cons_of_neg _ hp] at h
      obtain ⟨i, hi, hget, hpr, hbefore⟩ := ih r h
      refine ⟨i + 1, Nat.succ_lt_succ hi, by simpa using hget, hpr, ?_⟩
      intro j hj hji
      cases j with
      | zero => simpa using Bool.eq_false_iff.mpr (fun hpa => hp hpa)
      | succ j' =>
        have hj' : j' < rest.length := by
          simp at hj; omega
        have := hbefore j' hj' (by omega)
        simpa using this

theorem find?_isSome_of_mem {α : Type} (p : α → Bool) :
    ∀ (l : List α) (a : α), a ∈ l → p a = true → ∃ r, l.find? p = some r := by
  intro l
  induction l with
  | nil => intro a ha; cases ha
  | cons b rest ih =>
    intro a ha hp
    by_cases hpb : p b = true
    · exact ⟨b, List.find?_cons_of_pos _ hpb⟩
    · rcases List.mem_cons.mp ha with rfl | ha'
      · exact absurd hp hpb
      · obtain ⟨r, hr⟩ := ih a ha' hp
        exact ⟨r, by rw [List.find?_cons_of_neg _ hpb]; exact hr⟩

/-! ### Structural lemmas about `VoteAggregator.aggregate` -/

/-- Elimination form of a successful `aggregate`: the returned fields are the
`most_common` majority, the `next(...)`-found best critique, the enum-ordered
zero-filled breakdown and the exact-rational confidence. -/
theorem aggregate_eq_some_elim (results : List CritiqueResult) (vote : VoteResult)
    (h : VoteAggregator.aggregate results = some vote) :
    ∃ mc,
      mostCommon1 (results.map (fun r => r.verdict)) = some (vote.majority_verdict, mc) ∧
      results.find? (fun r => decide (r.verdict = vote.majority_verdict)) =
        some vote.best_critique ∧
      vote.breakdown =
        [(Verdict.CORRECT, vcount Verdict.CORRECT (results.map (fun r => r.verdict))),
         (Verdict.WRONG, vcount Verdict.WRONG (results.map (fun r => r.verdict))),
         (Verdict.GOAL_NOT_REACHED,
           vcount Verdict.GOAL_NOT_REACHED (results.map (fun r => r.verdict)))] ∧
      vote.confidence = (mc : ℚ) / (results.length : ℚ) ∧
      vote.is_low_confidence =
        decide (vote.confidence < VoteAggregator.LOW_CONFIDENCE_THRESHOLD) := by
  rcases hmc : mostCommon1 (results.map (fun r => r.verdict)) with _ | ⟨mv, mc⟩
  · simp only [VoteAggregator.aggregate, hmc] at h
    exact Option.noConfusion h
  · rcases hf : results.find? (fun r => decide (r.verdict = mv)) with _ | best
    · simp only [VoteAggregator.aggregate, hmc, hf] at h
      exact Option.noConfusion h
    · simp only [VoteAggregator.aggregate, hmc, hf] at h
      have hv := (Option.some.injEq _ _).mp h
      have h1 : vote.majority_verdict = mv := by rw [← hv]
      have h2 : vote.best_critique = best := by rw [← hv]
      have h3 : vote.breakdown =
          [(Verdict.CORRECT, vcount Verdict.CORRECT (results.map (fun r => r.verdict))),
           (Verdict.WRONG, vcount Verdict.WRONG (results.map (fun r => r.verdict))),
           (Verdict.GOAL_NOT_REACHED,
             vcount Verdict.GOAL_NOT_REACHED (results.map (fun r => r.verdict)))] := by
        rw [← hv]
      have h4 : vote.confidence = (mc : ℚ) / (results.length : ℚ) := by rw [← hv]
      have h5 : vote.is_low_confidence =
          decide ((mc : ℚ) / (results.length : ℚ) < VoteAggregator.LOW_CONFIDENCE_THRESHOLD) := by
        rw [← hv]
      refine ⟨mc, ?_, ?_, h3, h4, ?_⟩
      · rw [h1]; exact hmc
      · rw [h1, h2]; exact hf
      · rw [h4]; exact h5

/-- Introduction form: on a non-empty batch `aggregate` succeeds, and its
majority verdict satisfies the `most_common` maximality and tie-break
properties while its best critique is the first batch element with the
majority verdict. -/
theorem aggregate_isSome_of_ne_nil (results : List CritiqueResult) (h : results ≠ []) :
    ∃ vote, VoteAggregator.aggregate results = some vote := by
  have hmap : results.map (fun r => r.verdict) ≠ [] := by
    intro hm
    exact h (List.map_eq_nil_iff.mp hm)
  obtain ⟨mv, mc, hmc, _, hmem, _, _⟩ := mostCommon1_spec _ hmap
  obtain ⟨r0, hr0, hr0v⟩ := List.mem_map.mp hmem
  obtain ⟨best, hbest⟩ := find?_isSome_of_mem (fun r => decide (r.verdict = mv))
    results r0 hr0 (by simp [hr0v])
  refine ⟨{ majority_verdict := mv,
            breakdown :=
              [(Verdict.CORRECT,
                 vcount Verdict.CORRECT (results.map (fun r => r.verdict))),
               (Verdict.WRONG, vcount Verdict.WRONG (results.map (fun r => r.verdict))),
               (Verdict.GOAL_NOT_REACHED,
                 vcount Verdict.GOAL_NOT_REACHED (results.map (fun r => r.verdict)))],
            confidence := (mc : ℚ) / (results.length : ℚ),
            is_low_confidence :=
              decide ((mc : ℚ) / (results.length : ℚ) <
                VoteAggregator.LOW_CONFIDENCE_THRESHOLD),
            best_critique := best }, ?_⟩
  simp only [VoteAggregator.aggregate, hmc, hbest]

/-! ### Structural lemmas about the orchestrator loop -/

theorem mem_of_getLast?_eq_some {α : Type} {l : List α} {a : α}
    (h : l.getLast? = some a) : a ∈ l := by
  rw [List.getLast?_eq_getElem?] at h
  obtain ⟨hlt, hget⟩ := List.getElem?_eq_some_iff.mp h
  exact hget ▸ List.getElem_mem hlt

open SelfCritiqueOrchestrator in
/-- `runIteration` consults the oracle only at call indices
`callIdx, …, callIdx + num_critique_samples`. -/
theorem runIteration_congr (cfg : OrchestratorConfig)
    (oracle oracle' : Nat → String → ProviderOutcome)
    (d p history : String) (callIdx : Nat)
    (hagree : ∀ i, i < callIdx + 1 + cfg.num_critique_samples → oracle' i = oracle i) :
    runIteration cfg oracle' d p history callIdx =
      runIteration cfg oracle d p history callIdx := by
  simp only [runIteration]
  rw [hagree callIdx (by omega)]
  cases oracle callIdx (PLAN_PROMPT d p history) with
  | failure e => rfl
  | success plan =>
    have houts :
        (List.range cfg.num_critique_samples).map
            (fun i => oracle' (callIdx + 1 + i) (CRITIQUE_PROMPT d p plan)) =
          (List.range cfg.num_critique_samples).map
            (fun i => oracle (callIdx + 1 + i) (CRITIQUE_PROMPT d p plan)) := by
      apply List.map_congr_left
      intro i hi
      have hilt : i < cfg.num_critique_samples := List.mem_range.mp hi
      rw [hagree (callIdx + 1 + i) (by omega)]
    simp only [houts]

open SelfCritiqueOrchestrator in
/-- Master specification of the loop body `runFrom`, proved by induction on
the remaining iteration budget.  Given coherent entry state it characterises
every normally-returned `PlanResult`: the accumulated history is extended
append-only with records numbered `1, 2, …`; every record before the last is
a non-CORRECT vote; a CORRECT last vote yields status `valid` with the
iteration count equal to the history length; otherwise the loop ran to
`max_iterations` with the last vote reported; and the result only depends on
the oracle at the call indices actually consumed. -/
theorem runFrom_ok_spec (cfg : OrchestratorConfig)
    (oracle : Nat → String → ProviderOutcome) (d p : String) :
    ∀ (remaining iter callIdx : Nat) (history : String)
      (ihist : List IterationRecord) (last : Option (String × VoteResult)) (r : PlanResult),
      runFrom cfg oracle d p remaining iter callIdx history ihist last = Except.ok r →
      iter = ihist.length + 1 →
      ihist.length + remaining = cfg.max_iterations →
      (∀ i, (h : i < ihist.length) → (ihist[i]).iteration = i + 1) →
      (∀ rec ∈ ihist, rec.vote_result.majority_verdict ≠ Verdict.CORRECT) →
      (match last with
       | none => ihist = []
       | some pv => ∃ rec, ihist.getLast? = some rec ∧ rec.vote_result = pv.2) →
      (∃ t, r.iteration_history = ihist ++ t) ∧
      (∀ i, (h : i < r.iteration_history.length) →
        (r.iteration_history[i]).iteration = i + 1) ∧
      (∃ rec, r.iteration_history.getLast? = some rec ∧
        (∀ i, (h : i < r.iteration_history.length) →
          i + 1 < r.iteration_history.length →
          (r.iteration_history[i]).vote_result.majority_verdict ≠ Verdict.CORRECT) ∧
        (rec.vote_result.majority_verdict = Verdict.CORRECT →
          r.status = "valid" ∧ r.iterations = r.iteration_history.length ∧
          r.final_verdict = Verdict.CORRECT) ∧
        (rec.vote_result.majority_verdict ≠ Verdict.CORRECT →
          r.status = "max_iterations" ∧ r.iterations = cfg.max_iterations ∧
          r.iteration_history.length = cfg.max_iterations ∧
          r.final_verdict = rec.vote_result.majority_verdict)) ∧
      (∀ oracle' : Nat → String → ProviderOutcome,
        (∀ i, i < callIdx + (r.iteration_history.length - ihist.length) *
            (1 + cfg.num_critique_samples) → oracle' i = oracle i) →
        runFrom cfg oracle' d p remaining iter callIdx history ihist last = Except.ok r) := by
  intro remaining
  induction remaining with
  | zero =>
    intro iter callIdx history ihist last r hrun hiter hsum hnum hnc hcoh
    cases last with
    | none => simp [runFrom] at hrun
    | some pv =>
      obtain ⟨plan, vote⟩ := pv
      simp only [runFrom] at hrun
      injection hrun with hr
      subst hr
      obtain ⟨rec, hrecl, hrecv⟩ := hcoh
      have hrecm : rec ∈ ihist := mem_of_getLast?_eq_some hrecl
      have hrecnc : rec.vote_result.majority_verdict ≠ Verdict.CORRECT := hnc rec hrecm
      refine ⟨⟨[], by simp⟩, ?_, ⟨rec, hrecl, ?_, ?_, ?_⟩, ?_⟩
      · intro i h
        exact hnum i h
      · intro i h _
        exact fun hc => hnc _ (List.getElem_mem h) hc
      · intro hc; exact absurd hc hrecnc
      · intro _
        refine ⟨rfl, rfl, by simpa using hsum, ?_⟩
        simp only [hrecv]
      · intro oracle' _
        simp only [runFrom]
  | succ remaining ihind =>
    intro iter callIdx history ihist last r hrun hiter hsum hnum hnc hcoh
    simp only [runFrom] at hrun
    rcases hit : runIteration cfg oracle d p history callIdx with e | pv
    · rw [hit] at hrun; simp at hrun
    · obtain ⟨plan, vote⟩ := pv
      rw [hit] at hrun
      simp only at hrun
      by_cases hcor : vote.majority_verdict = Verdict.CORRECT
      · rw [if_pos hcor] at hrun
        injection hrun with hr
        subst hr
        refine ⟨⟨[(⟨iter, plan, vote⟩ : IterationRecord)], rfl⟩, ?_,
                ⟨(⟨iter, plan, vote⟩ : IterationRecord), ?_, ?_, ?_, ?_⟩, ?_⟩
        · intro i h
          simp only [List.length_append, List.length_cons, List.length_nil] at h
          by_cases hi : i < ihist.length
          · rw [List.getElem_append_left hi]
            exact hnum i hi
          · have hieq : i = ihist.length := by omega
            subst hieq
            rw [List.getElem_append_right (Nat.le_refl _)]
            simpa using hiter
        · exact List.getLast?_concat _
        · intro i h hsucc
          simp only [List.length_append, List.length_cons, List.length_nil] at hsucc
          have hi : i < ihist.length := by omega
          rw [List.getElem_append_left hi]
          exact hnc _ (List.getElem_mem hi)
        · intro _
          refine ⟨rfl, ?_, rfl⟩
          simpa using hiter
        · intro hne; exact absurd hcor hne
        · intro oracle' hag
          have hag' : ∀ i, i < callIdx + 1 + cfg.num_critique_samples →
              oracle' i = oracle i := by
            intro i hi
            apply hag
            have h1 : ((ihist ++ [(⟨iter, plan, vote⟩ : IterationRecord)]).length -
                ihist.length) = 1 := by simp
            rw [h1, Nat.one_mul]
            omega
          simp only [runFrom]
          rw [runIteration_congr cfg oracle oracle' d p history callIdx hag', hit]
          simp only [if_pos hcor]
      · rw [if_neg hcor] at hrun
        have hihl : (ihist ++ [(⟨iter, plan, vote⟩ : IterationRecord)]).length =
            ihist.length + 1 := by simp
        have spec := ihind (iter + 1) (callIdx + 1 + cfg.num_critique_samples)
          (critiqueHistoryText vote.best_critique.error_reason)
          (ihist ++ [(⟨iter, plan, vote⟩ : IterationRecord)])
          (some (plan, vote)) r hrun
          (by rw [hihl, hiter])
          (by rw [hihl]; omega)
          (by
            intro i h
            rw [hihl] at h
            by_cases hi : i < ihist.length
            · rw [List.getElem_append_left hi]
              exact hnum i hi
            · have hieq : i = ihist.length := by omega
              subst hieq
              rw [List.getElem_append_right (Nat.le_refl _)]
              simpa using hiter)
          (by
            intro rec hrec
            rcases List.mem_append.mp hrec with hrec' | hrec'
            · exact hnc rec hrec'
            · have hrec0 : rec = (⟨iter, plan, vote⟩ : IterationRecord) := by
                simpa using hrec'
              rw [hrec0]
              exact hcor)
          ⟨(⟨iter, plan, vote⟩ : IterationRecord), List.getLast?_concat _, rfl⟩
        obtain ⟨⟨t, ht⟩, c2, c3, c4⟩ := spec
        have hk : ihist.length + 1 ≤ r.iteration_history.length := by
          rw [ht, List.length_append, hihl]
          omega
        refine ⟨⟨(⟨iter, plan, vote⟩ : IterationRecord) :: t, by rw [ht]; simp⟩,
                c2, c3, ?_⟩
        intro oracle' hag
        have hmul : callIdx + (r.iteration_history.length - ihist.length) *
            (1 + cfg.num_critique_samples) =
            (callIdx + 1 + cfg.num_critique_samples) +
              (r.iteration_history.length - (ihist.length + 1)) *
                (1 + cfg.num_critique_samples) := by
          have hk2 : r.iteration_history.length - ihist.length =
              (r.iteration_history.length - (ihist.length + 1)) + 1 := by omega
          rw [hk2, Nat.succ_mul]
          generalize (r.iteration_history.length - (ihist.length + 1)) *
            (1 + cfg.num_critique_samples) = q
          omega
        have hag1 : ∀ i, i < callIdx + 1 + cfg.num_critique_samples →
            oracle' i = oracle i := by
          intro i hi
          apply hag
          rw [hmul]
          omega
        have hag2 : ∀ i, i < (callIdx + 1 + cfg.num_critique_samples) +
            (r.iteration_history.length -
              (ihist ++ [(⟨iter, plan, vote⟩ : IterationRecord)]).length) *
                (1 + cfg.num_critique_samples) →
            oracle' i = oracle i := by
          intro i hi
          apply hag
          rw [hihl] at hi
          rw [hmul]
          exact hi
        simp only [runFrom]
        rw [runIteration_congr cfg oracle oracle' d p history callIdx hag1, hit]
        simp only [if_neg hcor]
        exact c4 oracle' hag2

/-! ### The claims -/

/-- C1, counterexample: on the 2-2-1 batch
`[GOAL_NOT_REACHED, GOAL_NOT_REACHED, WRONG, WRONG, CORRECT]`, whose two
leading kinds are WRONG and GOAL_NOT_REACHED, `VoteAggregator.aggregate`
returns majority `GOAL_NOT_REACHED`, not `WRONG`: the claimed fixed
precedence WRONG over GOAL_NOT_REACHED over CORRECT does not hold, and the
result is not independent of batch order. -/
theorem C1_tiebreak_counterexample :
    (VoteAggregator.aggregate
        [mkCritique Verdict.GOAL_NOT_REACHED, mkCritique Verdict.GOAL_NOT_REACHED,
         mkCritique Verdict.WRONG, mkCritique Verdict.WRONG,
         mkCritique Verdict.CORRECT]).map (fun v => v.majority_verdict) =
      some Verdict.GOAL_NOT_REACHED ∧
    (VoteAggregator.aggregate batchTie).map (fun v => v.majority_verdict) =
      some Verdict.WRONG ∧
    Verdict.GOAL_NOT_REACHED ≠ Verdict.WRONG :=
  ⟨rfl, rfl, by decide⟩

/-- C1, amended: `VoteAggregator.aggregate` picks a majority verdict of
maximal count, and among verdicts tied for the highest count it picks the one
whose first occurrence in the batch is earliest (the `Counter.most_common`
insertion order) — not the fixed precedence WRONG over GOAL_NOT_REACHED over
CORRECT.  In particular a 2-2-1 batch led by WRONG and GOAL_NOT_REACHED
resolves to whichever of the two occurs first in the batch. -/
theorem C1_tiebreak_amended (results : List CritiqueResult) (vote : VoteResult)
    (h : VoteAggregator.aggregate results = some vote) :
    (∀ v : Verdict, vcount v (results.map (fun r => r.verdict)) ≤
      vcount vote.majority_verdict (results.map (fun r => r.verdict))) ∧
    (∀ v : Verdict, vcount v (results.map (fun r => r.verdict)) =
        vcount vote.majority_verdict (results.map (fun r => r.verdict)) →
      firstIdx (results.map (fun r => r.verdict)) vote.majority_verdict ≤
        firstIdx (results.map (fun r => r.verdict)) v) := by
  obtain ⟨mc, hmc, _, _, _, _⟩ := aggregate_eq_some_elim results vote h
  have hne : results.map (fun r => r.verdict) ≠ [] := by
    intro hnil
    rw [hnil] at hmc
    simp [mostCommon1, firstOccs] at hmc
  obtain ⟨mv', mc', hmc', hcnt', hmem', hmax', htie'⟩ := mostCommon1_spec _ hne
  rw [hmc] at hmc'
  have hpair := (Option.some.injEq _ _).mp hmc'
  have hmv : vote.majority_verdict = mv' := congrArg Prod.fst hpair
  have hmcv : mc = mc' := congrArg Prod.snd hpair
  subst hmv
  constructor
  · intro v
    rw [← hcnt']
    exact hmax' v
  · intro v hv
    apply htie'
    rw [hv, ← hcnt']

/-- C1, witness: on the batch `[WRONG, WRONG, GOAL_NOT_REACHED,
GOAL_NOT_REACHED, CORRECT]` the amended tie-break properties hold for the
returned vote (majority WRONG, the tied kind occurring first). -/
theorem C1_tiebreak_witness :
    (∀ v : Verdict, vcount v (batchTie.map (fun r => r.verdict)) ≤
      vcount voteTie.majority_verdict (batchTie.map (fun r => r.verdict))) ∧
    (∀ v : Verdict, vcount v (batchTie.map (fun r => r.verdict)) =
        vcount voteTie.majority_verdict (batchTie.map (fun r => r.verdict)) →
      firstIdx (batchTie.map (fun r => r.verdict)) voteTie.majority_verdict ≤
        firstIdx (batchTie.map (fun r => r.verdict)) v) :=
  C1_tiebreak_amended batchTie voteTie (by rfl)

/-- C2: on a run whose single plan-generation completion call (call index 0)
raises `ProviderError`, `run()` does NOT return a `PlanResult` with status
FAILED — there is no try/except in `run`/`_generate_plan`, so the exception
escapes `run()` (modelled as `Except.error`), even though every critique
call would have succeeded.  The claim describes the specified intent; the
code contradicts it (and the `PlanResult.status` comment documenting a
"failed" status that the code can never produce). -/
theorem C2_generation_failure_escapes :
    SelfCritiqueOrchestrator.run cfgThreeByFive oracleGenFail "domain" "problem" =
      Except.error "ProviderError" :=
  rfl

/-- C3: when 2 of the 5 critique completion calls of an iteration raise
`ProviderError`, the run fails: `asyncio.gather` is invoked without
`return_exceptions=True`, so the first error propagates out of
`_run_critiques` and `run()` (modelled as `Except.error`), instead of voting
over the 3 successful samples.  The second conjunct exhibits what the claim
(and the spec's scenario E) expected: aggregating the three successful
samples would give majority CORRECT with confidence 2/3. -/
theorem C3_partial_failure_escapes :
    SelfCritiqueOrchestrator.run cfgThreeByFive oraclePartialFail "domain" "problem" =
      Except.error "ProviderError" ∧
    (VoteAggregator.aggregate
        [CritiqueParser.parse "the plan is correct",
         CritiqueParser.parse "the plan is correct",
         CritiqueParser.parse "the plan is wrong"]).map
      (fun v => (v.majority_verdict, v.confidence)) =
        some (Verdict.CORRECT, (2 : ℚ) / 3) :=
  ⟨rfl, rfl⟩

/-- C4, counterexample: in the text
`"the plan is wrong, but also the plan is correct"` the phrase
"the plan is wrong" occurs at position 0, strictly before
"the plan is correct" (which also occurs), yet `CritiqueParser.parse`
returns CORRECT — the patterns are audited in fixed dict order with CORRECT
first, not by earliest match position as the claim states. -/
theorem C4_position_counterexample :
    ("the plan is wrong".data).isPrefixOf
        (lowerStr "the plan is wrong, but also the plan is correct").data = true ∧
    containsSub (lowerStr "the plan is wrong, but also the plan is correct").data
        "the plan is correct".data = true ∧
    (CritiqueParser.parse "the plan is wrong, but also the plan is correct").verdict =
      Verdict.CORRECT ∧
    Verdict.CORRECT ≠ Verdict.WRONG :=
  ⟨rfl, rfl, rfl, by decide⟩

/-- C4, amended: `CritiqueParser.parse` audits the three literal phrases
case-insensitively in the fixed priority order CORRECT, WRONG,
GOAL_NOT_REACHED, ignoring match positions: any text containing
"the plan is correct" parses as CORRECT (even if another phrase occurs
earlier); a text containing "the plan is wrong" but not
"the plan is correct" parses as WRONG; a text containing only
"goal not reached" parses as GOAL_NOT_REACHED. -/
theorem C4_priority_amended (s : String) :
    ((∃ a b, (lowerStr s).data = a ++ "the plan is correct".data ++ b) →
      (CritiqueParser.parse s).verdict = Verdict.CORRECT) ∧
    (¬(∃ a b, (lowerStr s).data = a ++ "the plan is correct".data ++ b) →
      (∃ a b, (lowerStr s).data = a ++ "the plan is wrong".data ++ b) →
      (CritiqueParser.parse s).verdict = Verdict.WRONG) ∧
    (¬(∃ a b, (lowerStr s).data = a ++ "the plan is correct".data ++ b) →
      ¬(∃ a b, (lowerStr s).data = a ++ "the plan is wrong".data ++ b) →
      (∃ a b, (lowerStr s).data = a ++ "goal not reached".data ++ b) →
      (CritiqueParser.parse s).verdict = Verdict.GOAL_NOT_REACHED) := by
  refine ⟨?_, ?_, ?_⟩
  · intro hex
    have hc : containsSub (lowerStr s).data "the plan is correct".data = true :=
      (containsSub_eq_true_iff _ _).mpr hex
    simp [CritiqueParser.parse, CritiqueParser.extract_verdict,
      CritiqueParser.VERDICT_PATTERNS, List.find?, hc]
  · intro hnc hex
    have hc : containsSub (lowerStr s).data "the plan is correct".data = false := by
      cases hb : containsSub (lowerStr s).data "the plan is correct".data
      · rfl
      · exact absurd ((containsSub_eq_true_iff _ _).mp hb) hnc
    have hw : containsSub (lowerStr s).data "the plan is wrong".data = true :=
      (containsSub_eq_true_iff _ _).mpr hex
    simp [CritiqueParser.parse, CritiqueParser.extract_verdict,
      CritiqueParser.VERDICT_PATTERNS, List.find?, hc, hw]
  · intro hnc hnw hex
    have hc : containsSub (lowerStr s).data "the plan is correct".data = false := by
      cases hb : containsSub (lowerStr s).data "the plan is correct".data
      · rfl
      · exact absurd ((containsSub_eq_true_iff _ _).mp hb) hnc
    have hw : containsSub (lowerStr s).data "the plan is wrong".data = false := by
      cases hb : containsSub (lowerStr s).data "the plan is wrong".data
      · rfl
      · exact absurd ((containsSub_eq_true_iff _ _).mp hb) hnw
    have hg : containsSub (lowerStr s).data "goal not reached".data = true :=
      (containsSub_eq_true_iff _ _).mpr hex
    simp [CritiqueParser.parse, CritiqueParser.extract_verdict,
      CritiqueParser.VERDICT_PATTERNS, List.find?, hc, hw, hg]

/-- C4, witness: a text containing "the plan is correct" (here preceded by
"the plan is wrong") parses as CORRECT, instantiating the amended claim. -/
theorem C4_priority_witness :
    (CritiqueParser.parse "the plan is wrong, but also the plan is correct").verdict =
      Verdict.CORRECT :=
  (C4_priority_amended "the plan is wrong, but also the plan is correct").1
    ⟨"the plan is wrong, but also ".data, [], by rfl⟩

/-- C5: for every run that returns normally, the iteration history is
non-empty with records numbered `1, 2, …`; every iteration before the last
had a non-CORRECT majority (the loop stops at the first CORRECT vote); if the
last vote is CORRECT the result has status `valid` with `iterations` equal to
the index of that first CORRECT iteration; otherwise every iteration up to
`max_iterations` was non-CORRECT and the result has status `max_iterations`
with `iterations = max_iterations` and the last vote's majority as final
verdict.  Moreover the result depends on the oracle only at the call indices
of the executed iterations: once iteration k returns `valid`, iteration k+1
is never started. -/
theorem C5_run_termination (cfg : OrchestratorConfig)
    (oracle : Nat → String → ProviderOutcome) (d p : String) (r : PlanResult)
    (h : SelfCritiqueOrchestrator.run cfg oracle d p = Except.ok r) :
    r.iteration_history ≠ [] ∧
    (∀ i, (hi : i < r.iteration_history.length) →
      (r.iteration_history[i]).iteration = i + 1) ∧
    (∀ i, (hi : i < r.iteration_history.length) → i + 1 < r.iteration_history.length →
      (r.iteration_history[i]).vote_result.majority_verdict ≠ Verdict.CORRECT) ∧
    (∃ rec, r.iteration_history.getLast? = some rec ∧
      (rec.vote_result.majority_verdict = Verdict.CORRECT →
        r.status = "valid" ∧ r.iterations = r.iteration_history.length ∧
        r.final_verdict = Verdict.CORRECT) ∧
      (rec.vote_result.majority_verdict ≠ Verdict.CORRECT →
        r.status = "max_iterations" ∧ r.iterations = cfg.max_iterations ∧
        r.iteration_history.length = cfg.max_iterations ∧
        r.final_verdict = rec.vote_result.majority_verdict)) ∧
    (∀ oracle' : Nat → String → ProviderOutcome,
      (∀ i, i < r.iteration_history.length * (1 + cfg.num_critique_samples) →
        oracle' i = oracle i) →
      SelfCritiqueOrchestrator.run cfg oracle' d p = Except.ok r) := by
  have spec := runFrom_ok_spec cfg oracle d p cfg.max_iterations 1 0 "" [] none r h
    rfl (by simp) (by intro i hi; exact absurd hi (Nat.not_lt_zero i))
    (by intro rec hrec; cases hrec) rfl
  obtain ⟨⟨t, ht⟩, c2, ⟨rec, hrecl, cprior, cok, cmax⟩, c4⟩ := spec
  refine ⟨?_, c2, cprior, ⟨rec, hrecl, cok, cmax⟩, ?_⟩
  · intro hnil
    rw [hnil] at hrecl
    simp at hrecl
  · intro oracle' hag
    apply c4
    intro i hi
    apply hag
    simpa using hi

/-- C5, witness: the one-iteration, one-sample all-CORRECT run (the design
doc's "plan validates on first try" scenario) satisfies the termination
properties: status `valid`, `iterations` equal to history length 1, final
verdict CORRECT. -/
theorem C5_run_termination_witness :
    resultOneCorrect.status = "valid" ∧
    resultOneCorrect.iterations = resultOneCorrect.iteration_history.length ∧
    resultOneCorrect.final_verdict = Verdict.CORRECT := by
  obtain ⟨_, _, _, ⟨rec, hrecl, cok, _⟩, _⟩ :=
    C5_run_termination cfgOneByOne oracleAllCorrect "d" "p" resultOneCorrect rfl
  have hrec : rec = (⟨1, "the plan is correct", voteOneCorrect⟩ : IterationRecord) := by
    have h0 : resultOneCorrect.iteration_history.getLast? =
        some (⟨1, "the plan is correct", voteOneCorrect⟩ : IterationRecord) := rfl
    rw [h0] at hrecl
    exact ((Option.some.injEq _ _).mp hrecl).symm
  exact cok (by rw [hrec]; rfl)

/-- C6: any critique text containing none of the three verdict phrases
(case-insensitively) is parsed with the fail-closed default verdict WRONG —
never CORRECT. -/
theorem C6_fail_closed_default (s : String)
    (hc : ¬∃ a b, (lowerStr s).data = a ++ "the plan is correct".data ++ b)
    (hw : ¬∃ a b, (lowerStr s).data = a ++ "the plan is wrong".data ++ b)
    (hg : ¬∃ a b, (lowerStr s).data = a ++ "goal not reached".data ++ b) :
    (CritiqueParser.parse s).verdict = Verdict.WRONG ∧
    (CritiqueParser.parse s).verdict ≠ Verdict.CORRECT := by
  have hcf : containsSub (lowerStr s).data "the plan is correct".data = false := by
    cases hb : containsSub (lowerStr s).data "the plan is correct".data
    · rfl
    · exact absurd ((containsSub_eq_true_iff _ _).mp hb) hc
  have hwf : containsSub (lowerStr s).data "the plan is wrong".data = false := by
    cases hb : containsSub (lowerStr s).data "the plan is wrong".data
    · rfl
    · exact absurd ((containsSub_eq_true_iff _ _).mp hb) hw
  have hgf : containsSub (lowerStr s).data "goal not reached".data = false := by
    cases hb : containsSub (lowerStr s).data "goal not reached".data
    · rfl
    · exact absurd ((containsSub_eq_true_iff _ _).mp hb) hg
  have hv : (CritiqueParser.parse s).verdict = Verdict.WRONG := by
    simp [CritiqueParser.parse, CritiqueParser.extract_verdict,
      CritiqueParser.VERDICT_PATTERNS, List.find?, hcf, hwf, hgf]
  refine ⟨hv, ?_⟩
  rw [hv]
  decide

/-- C6, witness: the empty critique text contains no verdict phrase and is
parsed as WRONG. -/
theorem C6_fail_closed_witness :
    (CritiqueParser.parse "").verdict = Verdict.WRONG ∧
    (CritiqueParser.parse "").verdict ≠ Verdict.CORRECT :=
  C6_fail_closed_default ""
    (fun hex => absurd ((containsSub_eq_true_iff _ _).mpr hex) (by decide))
    (fun hex => absurd ((containsSub_eq_true_iff _ _).mpr hex) (by decide))
    (fun hex => absurd ((containsSub_eq_true_iff _ _).mpr hex) (by decide))

/-- C7, counterexample: a concrete two-iteration run in which iteration 1 is
rejected with no extractable error reason.  The provider for the second
generation call succeeds only if its prompt embeds the literal history
`Previous attempt failed with: None` and fails if the prompt contains
`plan was rejected`; the run completes with status `valid` — so, when
`error_reason` is absent, the critique history fed into the next generation
prompt embeds the Python rendering `None`, and no generic "plan was
rejected" message exists in the fixed template. -/
theorem C7_template_counterexample :
    (SelfCritiqueOrchestrator.run cfgTwoByOne oracleObserveHistory "d" "p").map
        (fun r => (r.status, r.iterations, r.plan)) =
      Except.ok ("valid", 2, "plan B") ∧
    SelfCritiqueOrchestrator.critiqueHistoryText none =
      "\nPrevious attempt failed with: None\nPlease fix this issue." ∧
    containsSub (SelfCritiqueOrchestrator.critiqueHistoryText none).data
      "plan was rejected".data = false ∧
    (CritiqueParser.parse "the plan is wrong").error_reason = none :=
  ⟨rfl, rfl, rfl, rfl⟩

/-- C7, amended: after an iteration whose majority verdict is not CORRECT
(and that is not the last), the critique-history text fed into the next
iteration is the fixed f-string template embedding
`best_critique.error_reason`; when the error reason is absent the template
embeds the literal rendering `None` — there is no generic "plan was
rejected" message. -/
theorem C7_history_template_amended (cfg : OrchestratorConfig)
    (oracle : Nat → String → ProviderOutcome) (d p : String)
    (remaining iter callIdx : Nat) (history : String)
    (ihist : List IterationRecord) (last : Option (String × VoteResult))
    (plan : String) (vote : VoteResult)
    (hit : SelfCritiqueOrchestrator.runIteration cfg oracle d p history callIdx =
      Except.ok (plan, vote))
    (hnc : vote.majority_verdict ≠ Verdict.CORRECT) :
    SelfCritiqueOrchestrator.runFrom cfg oracle d p (remaining + 1) iter callIdx
        history ihist last =
      SelfCritiqueOrchestrator.runFrom cfg oracle d p remaining (iter + 1)
        (callIdx + 1 + cfg.num_critique_samples)
        (SelfCritiqueOrchestrator.critiqueHistoryText vote.best_critique.error_reason)
        (ihist ++ [(⟨iter, plan, vote⟩ : IterationRecord)]) (some (plan, vote)) ∧
    (∀ reason, SelfCritiqueOrchestrator.critiqueHistoryText (some reason) =
      "\nPrevious attempt failed with: " ++ reason ++ "\nPlease fix this issue.") ∧
    SelfCritiqueOrchestrator.critiqueHistoryText none =
      "\nPrevious attempt failed with: None\nPlease fix this issue." := by
  refine ⟨?_, fun reason => rfl, rfl⟩
  simp only [SelfCritiqueOrchestrator.runFrom, hit]
  simp only [if_neg hnc]

/-- C7, witness: instantiating the amended claim on a concrete rejected
iteration whose critique text ("the plan is wrong") yields no error reason:
the critique-history template renders the absent reason as `None`. -/
theorem C7_template_witness :
    SelfCritiqueOrchestrator.critiqueHistoryText none =
      "\nPrevious attempt failed with: None\nPlease fix this issue." :=
  (C7_history_template_amended cfgOneByOne oracleAllWrong "d" "p" 0 1 0 "" [] none
    "the plan is wrong" voteOneWrong rfl (by decide)).2.2

/-- C8: every successful aggregation returns a breakdown whose keys are
exactly the three verdict kinds in enum order; every entry carries the exact
occurrence count of its kind in the batch, so a kind unseen in the batch
appears with count zero; and the counts sum to the batch size. -/
theorem C8_breakdown_complete (results : List CritiqueResult) (vote : VoteResult)
    (h : VoteAggregator.aggregate results = some vote) :
    vote.breakdown.map Prod.fst =
      [Verdict.CORRECT, Verdict.WRONG, Verdict.GOAL_NOT_REACHED] ∧
    (∀ v cnt, (v, cnt) ∈ vote.breakdown →
      cnt = vcount v (results.map (fun r => r.verdict))) ∧
    (∀ v : Verdict, (∀ r ∈ results, r.verdict ≠ v) → (v, 0) ∈ vote.breakdown) ∧
    (vote.breakdown.map Prod.snd).sum = results.length := by
  obtain ⟨mc, _, _, h3, _, _⟩ := aggregate_eq_some_elim results vote h
  refine ⟨?_, ?_, ?_, ?_⟩
  · rw [h3]
    rfl
  · intro v cnt hmem
    rw [h3] at hmem
    simp only [List.mem_cons, List.not_mem_nil, or_false, Prod.mk.injEq] at hmem
    rcases hmem with ⟨rfl, rfl⟩ | ⟨rfl, rfl⟩ | ⟨rfl, rfl⟩ <;> rfl
  · intro v hun
    have hvz : vcount v (results.map (fun r => r.verdict)) = 0 := by
      apply vcount_eq_zero_of_not_mem
      intro hmem
      obtain ⟨r, hr, hrv⟩ := List.mem_map.mp hmem
      exact hun r hr hrv
    rw [h3]
    cases v
    · rw [← hvz]
      exact List.mem_cons_self _ _
    · rw [← hvz]
      exact List.mem_cons_of_mem _ (List.mem_cons_self _ _)
    · rw [← hvz]
      exact List.mem_cons_of_mem _ (List.mem_cons_of_mem _ (List.mem_cons_self _ _))
  · rw [h3]
    simp only [List.map_cons, List.map_nil, List.sum_cons, List.sum_nil]
    have hsum := vcount_sum_eq_length (results.map (fun r => r.verdict))
    simp only [List.length_map] at hsum
    omega

/-- C8, witness: on the single-element CORRECT batch the breakdown has all
three keys, each entry carries its kind's exact count — in particular the
unseen kinds WRONG and GOAL_NOT_REACHED appear with count zero — and the
counts sum to 1. -/
theorem C8_breakdown_witness :
    voteSingleCorrect.breakdown.map Prod.fst =
      [Verdict.CORRECT, Verdict.WRONG, Verdict.GOAL_NOT_REACHED] ∧
    (∀ v cnt, (v, cnt) ∈ voteSingleCorrect.breakdown →
      cnt = vcount v (([mkCritique Verdict.CORRECT] : List CritiqueResult).map
        (fun r => r.verdict))) ∧
    (∀ v : Verdict, (∀ r ∈ ([mkCritique Verdict.CORRECT] : List CritiqueResult),
        r.verdict ≠ v) → (v, 0) ∈ voteSingleCorrect.breakdown) ∧
    (voteSingleCorrect.breakdown.map Prod.snd).sum =
      ([mkCritique Verdict.CORRECT] : List CritiqueResult).length :=
  C8_breakdown_complete [mkCritique Verdict.CORRECT] voteSingleCorrect rfl

/-- C9: `CritiqueParser.parse` is a total function — it returns, for every
input string (the empty string and adversarial text included), a
`CritiqueResult` whose verdict lies in the closed three-element set and
whose raw response is the input itself.  In the embedding no operation of
`parse` is partial, which models the guarantee that parsing never raises. -/
theorem C9_parse_total_closed_verdict (s : String) :
    ((CritiqueParser.parse s).verdict = Verdict.CORRECT ∨
     (CritiqueParser.parse s).verdict = Verdict.WRONG ∨
     (CritiqueParser.parse s).verdict = Verdict.GOAL_NOT_REACHED) ∧
    (CritiqueParser.parse s).raw_response = s := by
  refine ⟨?_, rfl⟩
  cases hv : (CritiqueParser.parse s).verdict
  · exact Or.inl rfl
  · exact Or.inr (Or.inl rfl)
  · exact Or.inr (Or.inr rfl)

/-- C10: `VoteAggregator.aggregate` yields no `VoteResult` on the empty
batch (`most_common(1)[0]` raises `IndexError`, modelled as `none`), while
on every non-empty batch it returns a vote whose `best_critique` is the
first element in batch order whose verdict equals the majority verdict. -/
theorem C10_empty_raises_nonempty_first_best :
    VoteAggregator.aggregate [] = none ∧
    ∀ results : List CritiqueResult, results ≠ [] →
      ∃ vote, VoteAggregator.aggregate results = some vote ∧
        ∃ i, ∃ hi : i < results.length, results[i] = vote.best_critique ∧
          (results[i]).verdict = vote.majority_verdict ∧
          ∀ j, (hj : j < results.length) → j < i →
            (results[j]).verdict ≠ vote.majority_verdict := by
  refine ⟨rfl, ?_⟩
  intro results hne
  obtain ⟨vote, hv⟩ := aggregate_isSome_of_ne_nil results hne
  obtain ⟨mc, hmc, hfind, _, _, _⟩ := aggregate_eq_some_elim results vote hv
  obtain ⟨i, hi, hget, hpr, hbefore⟩ :=
    find?_first_spec _ results vote.best_critique hfind
  refine ⟨vote, hv, i, hi, hget, ?_, ?_⟩
  · rw [hget]
    exact of_decide_eq_true hpr
  · intro j hj hji
    have hf := hbefore j hj hji
    simpa using hf

/-- C10, witness: on the non-empty batch `[CORRECT, WRONG, WRONG]` the
aggregator returns a vote whose best critique is the element at index 1 —
the first one carrying the majority verdict WRONG. -/
theorem C10_first_best_witness :
    ∃ vote, VoteAggregator.aggregate batchFirstMatch = some vote ∧
      ∃ i, ∃ hi : i < batchFirstMatch.length, batchFirstMatch[i] = vote.best_critique ∧
        (batchFirstMatch[i]).verdict = vote.majority_verdict ∧
        ∀ j, (hj : j < batchFirstMatch.length) → j < i →
          (batchFirstMatch[j]).verdict ≠ vote.majority_verdict :=
  C10_empty_raises_nonempty_first_best.2 batchFirstMatch (by decide)

end SelfCritique
